import Mathlib

/-!
Verification development for the `borrowme` repository.

The development shallowly embeds the parts of the code that the checked
properties are about:

* the runtime trait library (`crates/borrowme/src/to_owned/std.rs`,
  `crates/borrowme/src/borrow.rs`): default `to_owned` / `borrow`
  implementations for strings, options, sequences, sets and maps, modelled
  over a universe of container type codes interpreted by their contents
  (sequences, sets and maps by their iteration sequences);
* the attribute resolver (`crates/borrowme-macros/src/attr.rs`): attribute
  lists for containers, variants and fields, the `set_attr` duplicate
  detection, and the `strip` pass;
* the classifier/emitter (`crates/borrowme-macros/src/implement.rs`): the
  `process_type` walk with its `TypeHint` signal and lifetime collection,
  and the per-field strategy resolution from `process_fields`.

Source spans are modelled by natural numbers, identifiers and path segments
by strings.
-/

namespace BorrowmeRt

/-- Type codes for the values handled by the runtime trait library, plus
`copy` (a field passed by value) and `pair` (a two-field container) so that
annotated container values can be represented. -/
inductive Cty where
  | str
  | copy
  | option (c : Cty)
  | vec (c : Cty)
  | hashSet (c : Cty)
  | btreeSet (c : Cty)
  | linkedList (c : Cty)
  | hashMap (k v : Cty)
  | btreeMap (k v : Cty)
  | pair (a b : Cty)
deriving DecidableEq

/-- Interpretation of a type code as the borrowed-side value type.
`&str` is interpreted by its character content; sequences, sets and maps by
their iteration sequences. -/
def Borrowed : Cty → Type
  | .str => String
  | .copy => Nat
  | .option c => Option (Borrowed c)
  | .vec c => List (Borrowed c)
  | .hashSet c => List (Borrowed c)
  | .btreeSet c => List (Borrowed c)
  | .linkedList c => List (Borrowed c)
  | .hashMap k v => List (Borrowed k × Borrowed v)
  | .btreeMap k v => List (Borrowed k × Borrowed v)
  | .pair a b => Borrowed a × Borrowed b

/-- Interpretation of a type code as the owned-side value type. -/
def Owned : Cty → Type
  | .str => String
  | .copy => Nat
  | .option c => Option (Owned c)
  | .vec c => List (Owned c)
  | .hashSet c => List (Owned c)
  | .btreeSet c => List (Owned c)
  | .linkedList c => List (Owned c)
  | .hashMap k v => List (Owned k × Owned v)
  | .btreeMap k v => List (Owned k × Owned v)
  | .pair a b => Owned a × Owned b

/-- `ToOwned::to_owned` from the runtime library.  `str` clones the
character data (`String::from(self)`); `Option` maps over the payload;
sequences, sets and maps iterate over `self` and insert
`value.to_owned()` for every element in iteration order; `copy` fields are
passed by value; `pair` converts both components as the derived container
code does. -/
def to_owned : (c : Cty) → Borrowed c → Owned c
  | .str, s => s
  | .copy, n => n
  | .option c, x => x.map (to_owned c)
  | .vec c, xs => xs.map (to_owned c)
  | .hashSet c, xs => xs.map (to_owned c)
  | .btreeSet c, xs => xs.map (to_owned c)
  | .linkedList c, xs => xs.map (to_owned c)
  | .hashMap k v, xs => xs.map (fun p => (to_owned k p.1, to_owned v p.2))
  | .btreeMap k v, xs => xs.map (fun p => (to_owned k p.1, to_owned v p.2))
  | .pair a b, x => (to_owned a x.1, to_owned b x.2)

/-- `Borrow::borrow` from the runtime library.  `String` borrows its
character content (`as_str`); `Option` maps over the payload; sequences,
sets and maps iterate over `self` and insert `value.borrow()` for every
element in iteration order. -/
def borrow : (c : Cty) → Owned c → Borrowed c
  | .str, s => s
  | .copy, n => n
  | .option c, x => x.map (borrow c)
  | .vec c, xs => xs.map (borrow c)
  | .hashSet c, xs => xs.map (borrow c)
  | .btreeSet c, xs => xs.map (borrow c)
  | .linkedList c, xs => xs.map (borrow c)
  | .hashMap k v, xs => xs.map (fun p => (borrow k p.1, borrow v p.2))
  | .btreeMap k v, xs => xs.map (fun p => (borrow k p.1, borrow v p.2))
  | .pair a b, x => (borrow a x.1, borrow b x.2)

end BorrowmeRt

/-- **C1.** For every value `x` of an annotated borrowed container type whose
fields all use the symmetric conversion strategies of the runtime trait
library (str/String, Option, Vec, sets, maps, copy fields, and containers
built from them), converting to owned and borrowing back is the identity:
`borrow (to_owned x) = x` under structural equality. -/
theorem c1_roundtrip_borrow_to_owned :
    ∀ (c : BorrowmeRt.Cty) (x : BorrowmeRt.Borrowed c),
      BorrowmeRt.borrow c (BorrowmeRt.to_owned c x) = x := by
  intro c
  induction c with
  | str => intro x; rfl
  | copy => intro x; rfl
  | option c ih =>
      intro x
      cases x with
      | none => rfl
      | some v => simp [BorrowmeRt.to_owned, BorrowmeRt.borrow, ih]
  | vec c ih =>
      intro xs
      simp only [BorrowmeRt.to_owned, BorrowmeRt.borrow, List.map_map]
      simpa [Function.comp] using
        (List.map_congr_left (fun a _ => ih a)).trans (List.map_id xs)
  | hashSet c ih =>
      intro xs
      simp only [BorrowmeRt.to_owned, BorrowmeRt.borrow, List.map_map]
      simpa [Function.comp] using
        (List.map_congr_left (fun a _ => ih a)).trans (List.map_id xs)
  | btreeSet c ih =>
      intro xs
      simp only [BorrowmeRt.to_owned, BorrowmeRt.borrow, List.map_map]
      simpa [Function.comp] using
        (List.map_congr_left (fun a _ => ih a)).trans (List.map_id xs)
  | linkedList c ih =>
      intro xs
      simp only [BorrowmeRt.to_owned, BorrowmeRt.borrow, List.map_map]
      simpa [Function.comp] using
        (List.map_congr_left (fun a _ => ih a)).trans (List.map_id xs)
  | hashMap k v ihk ihv =>
      intro xs
      simp only [BorrowmeRt.to_owned, BorrowmeRt.borrow, List.map_map]
      have : ∀ p : BorrowmeRt.Borrowed k × BorrowmeRt.Borrowed v,
          (BorrowmeRt.borrow k (BorrowmeRt.to_owned k p.1),
           BorrowmeRt.borrow v (BorrowmeRt.to_owned v p.2)) = p := by
        intro p; rw [ihk, ihv]
      simpa [Function.comp] using List.map_congr_left
        (fun a _ => this a) |>.trans (List.map_id _)
  | btreeMap k v ihk ihv =>
      intro xs
      simp only [BorrowmeRt.to_owned, BorrowmeRt.borrow, List.map_map]
      have : ∀ p : BorrowmeRt.Borrowed k × BorrowmeRt.Borrowed v,
          (BorrowmeRt.borrow k (BorrowmeRt.to_owned k p.1),
           BorrowmeRt.borrow v (BorrowmeRt.to_owned v p.2)) = p := by
        intro p; rw [ihk, ihv]
      simpa [Function.comp] using List.map_congr_left
        (fun a _ => this a) |>.trans (List.map_id _)
  | pair a b iha ihb =>
      intro x
      cases x with
      | mk l r => simp [BorrowmeRt.to_owned, BorrowmeRt.borrow, iha, ihb]

namespace Syn

/-- Source spans, modelled by natural numbers. -/
abbrev Span := Nat

mutual

/-- Model of `syn::Type`, restricted to the constructors that
`process_type` in `implement.rs` inspects.  References carry their optional
lifetime (name and span) and the span of the `&` token; paths carry the
leading-colon flag and their segments.  `other` stands for every other
`syn::Type` constructor (the `_` arm of `process_type`). -/
inductive Ty where
  | arr (elem : Ty)
  | bareFn (boundLts : List String) (inputs : TyList)
  | group (elem : Ty)
  | ref (lt : Option (String × Span)) (andSpan : Span) (elem : Ty)
  | slice (elem : Ty)
  | tuple (elems : TyList)
  | path (leadingColon : Bool) (segs : SegList)
  | other

/-- A list of types (tuple elements, bare-function inputs, parenthesized
path arguments). -/
inductive TyList where
  | nil
  | cons (hd : Ty) (tl : TyList)

/-- Path segments: a name together with its `PathArguments`. -/
inductive SegList where
  | nil
  | cons (name : String) (args : PathArgs) (tl : SegList)

/-- `syn::PathArguments`. -/
inductive PathArgs where
  | nonePA
  | angle (args : GArgList)
  | paren (inputs : TyList)

/-- A list of `syn::GenericArgument`s: lifetimes (name and span), types,
and other arguments (consts, bindings, …) which the walk skips. -/
inductive GArgList where
  | nil
  | consLt (name : String) (span : Span) (tl : GArgList)
  | consTy (ty : Ty) (tl : GArgList)
  | consOther (tl : GArgList)

end

end Syn

namespace Attr

open Syn (Span Ty)

/-- `FieldTypeKind` from `attr.rs`. -/
inductive FieldTypeKind where
  | Default
  | Copy (b : Bool)
  | Std
deriving DecidableEq

/-- A diagnostic recorded in the `Ctxt` error list (`syn::Error`): a span,
a message, and the extra spanned messages merged in via `Error::combine`. -/
structure Err where
  span : Span
  msg : String
  extra : List (Span × String)
deriving DecidableEq

/-- `set_attr` from `attr.rs`: if the option already holds a value, record
a configuration-error pair — one diagnostic at the new occurrence and one
pointing at the prior occurrence — and keep the existing value; otherwise
store the new value with its span.  The recorded diagnostics are returned;
callers append them to the invocation's accumulated error list in
execution order, modelling the `Ctxt` error sink. -/
def set_attr {α : Type} (existing : Option (Span × α)) (meta : Span)
    (value : α) (error : String) :
    Option (Span × α) × List Err :=
  match existing with
  | some (span, v) =>
      (some (span, v),
        [⟨meta, "#[borrowme] " ++ error, []⟩,
         ⟨span, "#[borrowme] Existing one is here.", []⟩])
  | none => (some (meta, value), [])

/-- `FieldType` from `attr.rs`: the kind and the explicit owned type,
each with the span it was set at. -/
structure FieldType where
  kind : Option (Span × FieldTypeKind)
  owned : Option (Span × Ty)

/-- `Attributes` from `attr.rs`: forwarded attribute metas for the owned
and the borrowed declaration (the meta payload is modelled opaquely by a
string). -/
structure Attributes where
  own : List String
  borrow : List String

/-- `Field` from `attr.rs`: the resolved per-field configuration. -/
structure Field where
  is_mut : Option (Span × Unit)
  ty : FieldType
  borrow : Option (Span × List String)
  borrow_mut : Option (Span × List String)
  to_owned : Option (Span × List String)
  attributes : Attributes

/-- The initial `Field` value built at the top of `field`. -/
def fieldInit : Field := ⟨none, ⟨none, none⟩, none, none, none, ⟨[], []⟩⟩

/-- Nested meta items inside a `#[borrowme(...)]` field attribute.  Paths
are modelled by their segment names; every meta carries the span of its
name (`meta.path.span()`), except `withPath` which records the span of the
last segment of its argument (`parse_path` returns it and the `with` arm
uses it).  `unknown` stands for an unsupported name. -/
inductive BMeta where
  | owned (ty : Ty) (span : Span)
  | mutMark (span : Span)
  | copy (span : Span)
  | noCopy (span : Span)
  | std (span : Span)
  | toOwnedWith (path : List String) (span : Span)
  | borrowWith (path : List String) (span : Span)
  | borrowMutWith (path : List String) (span : Span)
  | withPath (path : List String) (lastSegSpan : Span)
  | unknown (span : Span)

/-- An attribute attached to a field.  `copy`/`noCopy` record whether the
attribute has arguments (`hasArgs`, making it malformed), the span of its
path and the span of the whole attribute.  `other` is an attribute outside
the tool's namespace (the `continue` arm). -/
inductive FAttr where
  | copy (hasArgs : Bool) (pathSpan attrSpan : Span)
  | noCopy (hasArgs : Bool) (pathSpan attrSpan : Span)
  | owned (ty : Ty) (pathSpan : Span)
  | borrowme (metas : List BMeta)
  | borrowedAttr (m : String)
  | ownedAttr (m : String)
  | other (name : String)

/-- The metas of one `#[borrowme(...)]` field attribute, processed in order
(`parse_nested_meta`).  An unsupported name yields a `syn::Error`, which
aborts the remaining metas of this attribute; the caller records it, so the
diagnostic is appended here and the rest of the list is dropped.
Configuration already written and duplicate pairs already recorded are
kept. -/
def fieldBMetas : List BMeta → Field → Field × List Err
  | [], f => (f, [])
  | .owned ty span :: rest, f =>
      let r := set_attr f.ty.owned span ty "Duplicate owned attribute."
      let k := fieldBMetas rest { f with ty.owned := r.1 }
      (k.1, r.2 ++ k.2)
  | .mutMark span :: rest, f =>
      let r := set_attr f.is_mut span () "Duplicate attribute setting mutability."
      let k := fieldBMetas rest { f with is_mut := r.1 }
      (k.1, r.2 ++ k.2)
  | .copy span :: rest, f =>
      let r := set_attr f.ty.kind span (FieldTypeKind.Copy false)
        "Duplicate field kind."
      let k := fieldBMetas rest { f with ty.kind := r.1 }
      (k.1, r.2 ++ k.2)
  | .noCopy span :: rest, f =>
      let r := set_attr f.ty.kind span (FieldTypeKind.Copy false)
        "Duplicate field kind."
      let k := fieldBMetas rest { f with ty.kind := r.1 }
      (k.1, r.2 ++ k.2)
  | .std span :: rest, f =>
      let r := set_attr f.ty.kind span FieldTypeKind.Std "Duplicate field kind."
      let k := fieldBMetas rest { f with ty.kind := r.1 }
      (k.1, r.2 ++ k.2)
  | .toOwnedWith path span :: rest, f =>
      let r := set_attr f.to_owned span path "Duplicate to_owned_with."
      let k := fieldBMetas rest { f with to_owned := r.1 }
      (k.1, r.2 ++ k.2)
  | .borrowWith path span :: rest, f =>
      let r := set_attr f.borrow span path "Duplicate borrow_with."
      let k := fieldBMetas rest { f with borrow := r.1 }
      (k.1, r.2 ++ k.2)
  | .borrowMutWith path span :: rest, f =>
      let r := set_attr f.borrow_mut span path "Duplicate borrow_mut_with."
      let r2 := set_attr f.is_mut span () "Duplicate attribute setting mutability."
      let k := fieldBMetas rest { f with borrow_mut := r.1, is_mut := r2.1 }
      (k.1, r.2 ++ r2.2 ++ k.2)
  | .withPath path span :: rest, f =>
      let r := set_attr f.to_owned span (path ++ ["to_owned"])
        "Duplicate to_owned_with."
      let r2 := set_attr f.borrow span (path ++ ["borrow"])
        "Duplicate borrow_with."
      let r3 := set_attr f.borrow_mut span (path ++ ["borrow_mut"])
        "Duplicate borrow_mut_with."
      let k := fieldBMetas rest
        { f with to_owned := r.1, borrow := r2.1, borrow_mut := r3.1 }
      (k.1, r.2 ++ r2.2 ++ r3.2 ++ k.2)
  | .unknown span :: _, f =>
      (f, [⟨span, "#[borrowme]: Unsupported attribute.", []⟩])

/-- One iteration of the attribute loop in `field`. -/
def fieldStep (f : Field) : FAttr → Field × List Err
  | .copy hasArgs pathSpan attrSpan =>
      if hasArgs then
        (f, [⟨attrSpan, "#[copy] Expected no arguments.", []⟩])
      else
        let r := set_attr f.ty.kind pathSpan (FieldTypeKind.Copy true)
          "Duplicate field kind from copy attribute."
        ({ f with ty.kind := r.1 }, r.2)
  | .noCopy hasArgs pathSpan attrSpan =>
      if hasArgs then
        (f, [⟨attrSpan, "#[no_copy] Expected no arguments.", []⟩])
      else
        let r := set_attr f.ty.kind pathSpan (FieldTypeKind.Copy false)
          "Duplicate field kind from no_copy attribute."
        ({ f with ty.kind := r.1 }, r.2)
  | .owned ty pathSpan =>
      let r := set_attr f.ty.owned pathSpan ty "Duplicate owned attribute."
      ({ f with ty.owned := r.1 }, r.2)
  | .borrowme metas => fieldBMetas metas f
  | .borrowedAttr m =>
      ({ f with attributes.borrow := f.attributes.borrow ++ [m] }, [])
  | .ownedAttr m =>
      ({ f with attributes.own := f.attributes.own ++ [m] }, [])
  | .other _ => (f, [])

/-- The attribute loop of `field`. -/
def fieldFold : List FAttr → Field → Field × List Err
  | [], f => (f, [])
  | a :: rest, f =>
      let r := fieldStep f a
      let k := fieldFold rest r.1
      (k.1, r.2 ++ k.2)

/-- `field` from `attr.rs`: fold the ordered attribute list into a `Field`
configuration, accumulating diagnostics; afterwards an unset kind falls
back to the inherited default kind.  The function always returns a
configuration. -/
def field (attrs : List FAttr) (default_kind : Option (Span × FieldTypeKind)) :
    Field × List Err :=
  let r := fieldFold attrs fieldInit
  (if r.1.ty.kind.isNone then { r.1 with ty.kind := default_kind } else r.1, r.2)

end Attr

namespace Attr

open Syn (Span Ty)

/-- `Container` from `attr.rs`: the resolved container configuration. -/
structure Container where
  owned_ident : Option (Span × String)
  attributes : Attributes
  kind : Option (Span × FieldTypeKind)

/-- Nested meta items inside a `#[borrowme(...)]` container attribute. -/
inductive CMeta where
  | name (ident : String) (span : Span)
  | std (span : Span)
  | unknown (span : Span)

/-- An attribute attached to a container declaration. -/
inductive CAttr where
  | borrowme (metas : List CMeta)
  | borrowedAttr (m : String)
  | ownedAttr (m : String)
  | other (name : String)

/-- The metas of one `#[borrowme(...)]` container attribute, processed in
order; an unsupported name aborts the remaining metas of this attribute
with one diagnostic. -/
def containerCMetas : List CMeta → Container → Container × List Err
  | [], c => (c, [])
  | .name ident span :: rest, c =>
      let r := set_attr c.owned_ident span ident "Duplicate name."
      let k := containerCMetas rest { c with owned_ident := r.1 }
      (k.1, r.2 ++ k.2)
  | .std span :: rest, c =>
      let r := set_attr c.kind span FieldTypeKind.Std
        "Duplicate container field kind."
      let k := containerCMetas rest { c with kind := r.1 }
      (k.1, r.2 ++ k.2)
  | .unknown span :: _, c =>
      (c, [⟨span, "#[borrowme]: Unsupported attribute.", []⟩])

/-- One iteration of the attribute loop in `container`. -/
def containerStep (c : Container) : CAttr → Container × List Err
  | .borrowme metas => containerCMetas metas c
  | .borrowedAttr m =>
      ({ c with attributes.borrow := c.attributes.borrow ++ [m] }, [])
  | .ownedAttr m =>
      ({ c with attributes.own := c.attributes.own ++ [m] }, [])
  | .other _ => (c, [])

/-- The attribute loop of `container`. -/
def containerFold : List CAttr → Container → Container × List Err
  | [], c => (c, [])
  | a :: rest, c =>
      let r := containerStep c a
      let k := containerFold rest r.1
      (k.1, r.2 ++ k.2)

/-- `container` from `attr.rs`: fold the attribute list (`attrs` chained
with `rest`) into a `Container` configuration, accumulating diagnostics. -/
def container (attrs rest : List CAttr) : Container × List Err :=
  containerFold (attrs ++ rest) ⟨none, ⟨[], []⟩, none⟩

/-- `Variant` from `attr.rs`. -/
structure Variant where
  attributes : Attributes
  kind : Option (Span × FieldTypeKind)

/-- Nested meta items inside a `#[borrowme(...)]` variant attribute. -/
inductive VMeta where
  | std (span : Span)
  | unknown (span : Span)

/-- An attribute attached to an enum variant. -/
inductive VAttr where
  | borrowme (metas : List VMeta)
  | borrowedAttr (m : String)
  | ownedAttr (m : String)
  | other (name : String)

/-- The metas of one `#[borrowme(...)]` variant attribute. -/
def variantVMetas : List VMeta → Variant → Variant × List Err
  | [], v => (v, [])
  | .std span :: rest, v =>
      let r := set_attr v.kind span FieldTypeKind.Std
        "Duplicate variant field kind."
      let k := variantVMetas rest { v with kind := r.1 }
      (k.1, r.2 ++ k.2)
  | .unknown span :: _, v =>
      (v, [⟨span, "#[borrowme]: Unsupported attribute.", []⟩])

/-- One iteration of the attribute loop in `variant`. -/
def variantStep (v : Variant) : VAttr → Variant × List Err
  | .borrowme metas => variantVMetas metas v
  | .borrowedAttr m =>
      ({ v with attributes.borrow := v.attributes.borrow ++ [m] }, [])
  | .ownedAttr m =>
      ({ v with attributes.own := v.attributes.own ++ [m] }, [])
  | .other _ => (v, [])

/-- The attribute loop of `variant`. -/
def variantFold : List VAttr → Variant → Variant × List Err
  | [], v => (v, [])
  | a :: rest, v =>
      let r := variantStep v a
      let k := variantFold rest r.1
      (k.1, r.2 ++ k.2)

/-- `variant` from `attr.rs`: fold the attribute list into a `Variant`
configuration; afterwards an unset kind inherits the container's kind. -/
def variant (attrs : List VAttr) (c : Container) : Variant × List Err :=
  let r := variantFold attrs ⟨⟨[], []⟩, none⟩
  (if r.1.kind.isNone then { r.1 with kind := c.kind } else r.1, r.2)

/-- Model of `syn::Path` as far as `is_ident` looks at it: the
leading-colon flag and the segments, each a name together with whether it
carries path arguments. -/
structure PathM where
  leadingColon : Bool
  segs : List (String × Bool)
deriving DecidableEq

/-- `syn::Path::is_ident`: true when the path has no leading colon and
exactly one argument-free segment with the given name. -/
def is_ident (p : PathM) (name : String) : Bool :=
  !p.leadingColon && p.segs == [(name, false)]

/-- A `syn::Attribute` as far as `strip` looks at it: its path, plus an
opaque payload standing for the rest of the attribute. -/
structure SynAttr where
  path : PathM
  payload : String
deriving DecidableEq

/-- `STRIP` from `attr.rs`, in source order. -/
def STRIP : List String :=
  ["copy", "no_copy", "borrowed_attr", "owned_attr", "borrowme", "owned"]

/-- `strip` from `attr.rs`: retain exactly the attributes whose path is
not one of the reserved identifiers. -/
def strip (attrs : List SynAttr) : List SynAttr :=
  attrs.filter (fun a => STRIP.all (fun name => !is_ident a.path name))

end Attr

/-- **C9.** Attribute stripping removes exactly the attributes whose name
is in the reserved set `{copy, no_copy, borrowme, borrowed_attr,
owned_attr, owned}` (independently of whether their content was consumed —
`strip` never looks at the payload), passes every other attribute through
untouched in its original order (the result is the sublist of non-reserved
attributes), and is idempotent. -/
theorem c9_strip_reserved_exact_order_idempotent :
    ∀ attrs : List Attr.SynAttr,
      Attr.strip attrs =
        attrs.filter (fun a =>
          !(["copy", "no_copy", "borrowme", "borrowed_attr", "owned_attr",
             "owned"].any (fun n => Attr.is_ident a.path n))) ∧
      Attr.strip (Attr.strip attrs) = Attr.strip attrs ∧
      (Attr.strip attrs).Sublist attrs := by
  intro attrs
  refine ⟨?_, ?_, List.filter_sublist _⟩
  · apply List.filter_congr
    intro a _
    rw [Bool.eq_iff_iff]
    simp [Attr.STRIP]
    tauto
  · simp [Attr.strip, List.filter_filter]

/-- **C3** (code-bug evidence).  The bare `#[copy]` spelling resolves the
field kind to `Copy(true)` and the bare `#[no_copy]` and namespaced
`#[borrowme(no_copy)]` spellings resolve it to `Copy(false)`, but the
namespaced `#[borrowme(copy)]` spelling also resolves it to `Copy(false)` —
the `copy` arm of the `#[borrowme(...)]` parser constructs
`FieldTypeKind::Copy(false)`, contradicting the crate documentation, which
states that `#[copy]` "can also be specified as `#[borrowme(copy)]`". -/
theorem c3_borrowme_copy_spelling_resolves_to_copy_false :
    (Attr.field [.copy false 0 0] none).1.ty.kind =
      some (0, Attr.FieldTypeKind.Copy true) ∧
    (Attr.field [.noCopy false 1 1] none).1.ty.kind =
      some (1, Attr.FieldTypeKind.Copy false) ∧
    (Attr.field [.borrowme [.noCopy 2]] none).1.ty.kind =
      some (2, Attr.FieldTypeKind.Copy false) ∧
    (Attr.field [.borrowme [.copy 3]] none).1.ty.kind =
      some (3, Attr.FieldTypeKind.Copy false) :=
  ⟨rfl, rfl, rfl, rfl⟩

/-- The five spellings that write the field-kind option: bare `#[copy]`,
bare `#[no_copy]`, and the namespaced `#[borrowme(copy)]`,
`#[borrowme(no_copy)]` and `#[borrowme(std)]`. -/
inductive KindSp where
  | copyOuter
  | noCopyOuter
  | copyNs
  | noCopyNs
  | stdNs

/-- The (well-formed) field attribute for a kind spelling at a span. -/
def kindAttr : KindSp → Syn.Span → Attr.FAttr
  | .copyOuter, s => .copy false s s
  | .noCopyOuter, s => .noCopy false s s
  | .copyNs, s => .borrowme [.copy s]
  | .noCopyNs, s => .borrowme [.noCopy s]
  | .stdNs, s => .borrowme [.std s]

/-- The kind value each spelling stores (as the code stores it). -/
def kindVal : KindSp → Attr.FieldTypeKind
  | .copyOuter => .Copy true
  | .noCopyOuter => .Copy false
  | .copyNs => .Copy false
  | .noCopyNs => .Copy false
  | .stdNs => .Std

/-- The duplicate message each spelling passes to `set_attr`. -/
def kindDupMsg : KindSp → String
  | .copyOuter => "Duplicate field kind from copy attribute."
  | .noCopyOuter => "Duplicate field kind from no_copy attribute."
  | _ => "Duplicate field kind."

/-- **C2.** Setting the same logical option twice, via any spelling,
registers exactly one configuration-error pair — one diagnostic at the new
occurrence and one pointing at the prior occurrence — and the configuration
keeps the first value, never silently overwriting it: (i) `set_attr` on an
already-set option keeps the stored value and appends exactly the pair;
(ii) any two of the five field-kind spellings conflict this way; (iii) a
duplicated container name, (iv) a duplicated container `std` kind, and
(v) a duplicated variant `std` kind each yield exactly the pair and keep
the first value. -/
theorem c2_duplicate_option_error_pair :
    (∀ (α : Type) (s₀ : Syn.Span) (v₀ : α) (meta : Syn.Span) (v : α)
        (msg : String),
      Attr.set_attr (some (s₀, v₀)) meta v msg =
        (some (s₀, v₀),
          [⟨meta, "#[borrowme] " ++ msg, []⟩,
           ⟨s₀, "#[borrowme] Existing one is here.", []⟩])) ∧
    (∀ (sp₁ sp₂ : KindSp) (s₁ s₂ : Syn.Span),
      Attr.field [kindAttr sp₁ s₁, kindAttr sp₂ s₂] none =
        ({ Attr.fieldInit with ty.kind := some (s₁, kindVal sp₁) },
         [⟨s₂, "#[borrowme] " ++ kindDupMsg sp₂, []⟩,
          ⟨s₁, "#[borrowme] Existing one is here.", []⟩])) ∧
    (∀ (n₁ n₂ : String) (s₁ s₂ : Syn.Span),
      Attr.container [.borrowme [.name n₁ s₁], .borrowme [.name n₂ s₂]] [] =
        (⟨some (s₁, n₁), ⟨[], []⟩, none⟩,
         [⟨s₂, "#[borrowme] " ++ "Duplicate name.", []⟩,
          ⟨s₁, "#[borrowme] Existing one is here.", []⟩])) ∧
    (∀ (s₁ s₂ : Syn.Span),
      Attr.container [.borrowme [.std s₁, .std s₂]] [] =
        (⟨none, ⟨[], []⟩, some (s₁, .Std)⟩,
         [⟨s₂, "#[borrowme] " ++ "Duplicate container field kind.", []⟩,
          ⟨s₁, "#[borrowme] Existing one is here.", []⟩])) ∧
    (∀ (co : Attr.Container) (s₁ s₂ : Syn.Span),
      Attr.variant [.borrowme [.std s₁], .borrowme [.std s₂]] co =
        (⟨⟨[], []⟩, some (s₁, .Std)⟩,
         [⟨s₂, "#[borrowme] " ++ "Duplicate variant field kind.", []⟩,
          ⟨s₁, "#[borrowme] Existing one is here.", []⟩])) := by
  refine ⟨fun α s₀ v₀ meta v msg => rfl, ?_, fun n₁ n₂ s₁ s₂ => rfl,
    fun s₁ s₂ => rfl, fun co s₁ s₂ => rfl⟩
  intro sp₁ sp₂ s₁ s₂
  cases sp₁ <;> cases sp₂ <;> rfl

namespace Attr

/-- Span-erased view of a resolved `Field` configuration: the semantic
payload of each option (mutability as a flag, kind, owned type, the three
delegate paths, the forwarded attribute lists). -/
structure FieldSem where
  is_mut : Bool
  kind : Option FieldTypeKind
  owned : Option Syn.Ty
  borrow : Option (List String)
  borrow_mut : Option (List String)
  to_owned : Option (List String)
  own_attrs : List String
  borrow_attrs : List String

/-- Project a `Field` to its span-erased semantic payload. -/
def fieldSem (f : Field) : FieldSem :=
  ⟨f.is_mut.isSome, f.ty.kind.map Prod.snd, f.ty.owned.map Prod.snd,
   f.borrow.map Prod.snd, f.borrow_mut.map Prod.snd, f.to_owned.map Prod.snd,
   f.attributes.own, f.attributes.borrow⟩

end Attr

/-- **C8** (counterexample).  `#[borrowme(with = p)]` does not produce the
same resolved configuration as the three individual delegates
`to_owned_with = p::to_owned`, `borrow_with = p::borrow`,
`borrow_mut_with = p::borrow_mut` together: the `borrow_mut_with` arm also
marks the field mutable, while the `with` arm does not, so even the
span-erased configurations differ. -/
theorem c8_with_vs_three_delegates_counterexample :
    ¬ (Attr.fieldSem (Attr.field [.borrowme [.withPath ["p"] 0]] none).1 =
       Attr.fieldSem (Attr.field [.borrowme
         [.toOwnedWith ["p", "to_owned"] 1, .borrowWith ["p", "borrow"] 2,
          .borrowMutWith ["p", "borrow_mut"] 3]] none).1) := by
  intro h
  have h2 := congrArg Attr.FieldSem.is_mut h
  rw [show (Attr.fieldSem (Attr.field [.borrowme [.withPath ["p"] 0]]
        none).1).is_mut = false from rfl,
      show (Attr.fieldSem (Attr.field [.borrowme
        [.toOwnedWith ["p", "to_owned"] 1, .borrowWith ["p", "borrow"] 2,
         .borrowMutWith ["p", "borrow_mut"] 3]] none).1).is_mut = true
        from rfl] at h2
  exact Bool.false_ne_true h2

/-- **C8** (amended).  `#[borrowme(with = p)]` derives the three delegate
paths by appending the conventional suffixes `to_owned`, `borrow` and
`borrow_mut` to the base path, and resolves to the same span-erased
configuration as the three individual delegates together in every field
except mutability: `borrow_mut_with` additionally marks the field mutable,
while `with` leaves mutability unset. -/
theorem c8_with_expands_to_suffixed_delegates :
    ∀ (p : List String) (s s₁ s₂ s₃ : Syn.Span),
      (Attr.field [.borrowme [.withPath p s]] none).1.to_owned =
        some (s, p ++ ["to_owned"]) ∧
      (Attr.field [.borrowme [.withPath p s]] none).1.borrow =
        some (s, p ++ ["borrow"]) ∧
      (Attr.field [.borrowme [.withPath p s]] none).1.borrow_mut =
        some (s, p ++ ["borrow_mut"]) ∧
      (Attr.field [.borrowme [.withPath p s]] none).1.is_mut = none ∧
      (Attr.field [.borrowme
         [.toOwnedWith (p ++ ["to_owned"]) s₁,
          .borrowWith (p ++ ["borrow"]) s₂,
          .borrowMutWith (p ++ ["borrow_mut"]) s₃]] none).1.is_mut =
        some (s₃, ()) ∧
      Attr.fieldSem (Attr.field [.borrowme [.withPath p s]] none).1 =
        { Attr.fieldSem (Attr.field [.borrowme
            [.toOwnedWith (p ++ ["to_owned"]) s₁,
             .borrowWith (p ++ ["borrow"]) s₂,
             .borrowMutWith (p ++ ["borrow_mut"]) s₃]] none).1 with
          is_mut := false } ∧
      (Attr.field [.borrowme [.withPath p s]] none).2 = [] ∧
      (Attr.field [.borrowme
         [.toOwnedWith (p ++ ["to_owned"]) s₁,
          .borrowWith (p ++ ["borrow"]) s₂,
          .borrowMutWith (p ++ ["borrow_mut"]) s₃]] none).2 = [] :=
  fun p s s₁ s₂ s₃ => ⟨rfl, rfl, rfl, rfl, rfl, rfl, rfl, rfl⟩

namespace Attr

/-- Splitting the field-attribute loop around a list append: the
configuration threads through and the diagnostics concatenate. -/
theorem fieldFold_append (l₁ l₂ : List FAttr) (f : Field) :
    fieldFold (l₁ ++ l₂) f =
      ((fieldFold l₂ (fieldFold l₁ f).1).1,
       (fieldFold l₁ f).2 ++ (fieldFold l₂ (fieldFold l₁ f).1).2) := by
  induction l₁ generalizing f with
  | nil => simp [fieldFold]
  | cons a rest ih => simp [fieldFold, ih, List.append_assoc]

/-- Field attributes that fail to parse on their own without touching the
configuration: `#[copy]` / `#[no_copy]` with arguments, and a
`#[borrowme(...)]` whose single meta has an unsupported name.  Each is
paired with the single diagnostic it produces. -/
inductive IsMalformed : FAttr → Err → Prop where
  | copyArgs (s₁ s₂ : Syn.Span) :
      IsMalformed (.copy true s₁ s₂) ⟨s₂, "#[copy] Expected no arguments.", []⟩
  | noCopyArgs (s₁ s₂ : Syn.Span) :
      IsMalformed (.noCopy true s₁ s₂)
        ⟨s₂, "#[no_copy] Expected no arguments.", []⟩
  | unsupportedMeta (s : Syn.Span) :
      IsMalformed (.borrowme [.unknown s])
        ⟨s, "#[borrowme]: Unsupported attribute.", []⟩

/-- Processing a malformed attribute registers exactly its diagnostic and
leaves the configuration unchanged. -/
theorem fieldStep_malformed (f : Field) (a : FAttr) (e : Err)
    (h : IsMalformed a e) : fieldStep f a = (f, [e]) := by
  cases h <;> rfl

end Attr

/-- **C10.** A malformed attribute anywhere in a field's attribute list
registers exactly one diagnostic in the per-invocation error list, placed
between the diagnostics of the preceding and the following attributes, and
processing continues: the resolved configuration is exactly the one
obtained from the list without the malformed attribute (resolution always
returns a configuration and never stops at the first error). -/
theorem c10_malformed_attribute_isolated_diagnostic :
    ∀ (pre post : List Attr.FAttr) (bad : Attr.FAttr) (e : Attr.Err)
      (dk : Option (Syn.Span × Attr.FieldTypeKind)),
      Attr.IsMalformed bad e →
      (Attr.field (pre ++ bad :: post) dk).1 =
        (Attr.field (pre ++ post) dk).1 ∧
      (Attr.field (pre ++ bad :: post) dk).2 =
        (Attr.fieldFold pre Attr.fieldInit).2 ++
          e :: (Attr.fieldFold post (Attr.fieldFold pre Attr.fieldInit).1).2 ∧
      (Attr.field (pre ++ post) dk).2 =
        (Attr.fieldFold pre Attr.fieldInit).2 ++
          (Attr.fieldFold post (Attr.fieldFold pre Attr.fieldInit).1).2 := by
  intro pre post bad e dk h
  have hstep :=
    Attr.fieldStep_malformed (Attr.fieldFold pre Attr.fieldInit).1 bad e h
  refine ⟨?_, ?_, ?_⟩ <;>
    simp [Attr.field, Attr.fieldFold_append, Attr.fieldFold, hstep]

/-- Witness for C10: a malformed `#[borrowme(<unsupported>)]` sitting
between `#[copy]` and `#[borrowme(mut)]` contributes exactly its own
diagnostic and the configuration is the one resolved without it. -/
theorem c10_malformed_attribute_isolated_diagnostic_witness :
    Attr.IsMalformed (.borrowme [.unknown 5])
      ⟨5, "#[borrowme]: Unsupported attribute.", []⟩ ∧
    (Attr.field ([.copy false 0 0] ++ .borrowme [.unknown 5] ::
        [.borrowme [.mutMark 1]]) none).1 =
      (Attr.field ([.copy false 0 0] ++ [.borrowme [.mutMark 1]]) none).1 ∧
    (Attr.field ([.copy false 0 0] ++ .borrowme [.unknown 5] ::
        [.borrowme [.mutMark 1]]) none).2 =
      (Attr.fieldFold [.copy false 0 0] Attr.fieldInit).2 ++
        (⟨5, "#[borrowme]: Unsupported attribute.", []⟩ : Attr.Err) ::
        (Attr.fieldFold [.borrowme [.mutMark 1]]
          (Attr.fieldFold [.copy false 0 0] Attr.fieldInit).1).2 :=
  ⟨.unsupportedMeta 5,
   (c10_malformed_attribute_isolated_diagnostic [.copy false 0 0]
      [.borrowme [.mutMark 1]] (.borrowme [.unknown 5])
      ⟨5, "#[borrowme]: Unsupported attribute.", []⟩ none
      (.unsupportedMeta 5)).1,
   (c10_malformed_attribute_isolated_diagnostic [.copy false 0 0]
      [.borrowme [.mutMark 1]] (.borrowme [.unknown 5])
      ⟨5, "#[borrowme]: Unsupported attribute.", []⟩ none
      (.unsupportedMeta 5)).2.1⟩

namespace Impl

open Syn

/-- `TypeHint` from `implement.rs`. -/
inductive TypeHint where
  | None
  | Copy
deriving DecidableEq

/-- `TypeHint::combine` from `implement.rs`, embedded by its literal match:
`(Copy, Copy)` stays `Copy` and every other pair stores the second
operand. -/
def TypeHint.combine (self other : TypeHint) : TypeHint :=
  match self, other with
  | .Copy, .Copy => .Copy
  | _, other => other

/-- The primitive-looking identifiers that `process_type` treats as `Copy`
leaves. -/
def primIdents : List String :=
  ["u8", "u16", "u32", "u64", "u128", "usize",
   "i8", "i16", "i32", "i64", "i128", "isize", "f32", "f64", "bool"]

/-- `syn::Path::get_ident` combined with the primitive table: a path is a
primitive leaf when it has no leading colon and exactly one argument-free
segment whose name is in the table. -/
def isPrimPath (leadingColon : Bool) (segs : SegList) : Bool :=
  match leadingColon, segs with
  | false, .cons n .nonePA .nil => primIdents.contains n
  | _, _ => false

/-- Result of the `process_type` walk: the type with the walked lifetimes
rewritten to `'static` (the `&mut`-updated argument), the `TypeHint`, the
dereferenced element of a reference (`reference_type`), and the collected
lifetime occurrences (`out`): span plus the original lifetime (none for an
anonymous reference). -/
structure Walk where
  rewritten : Ty
  hint : TypeHint
  reference_type : Option Ty
  out : List (Span × Option String)

mutual

/-- `process_type` from `implement.rs`: walk a type, collecting the
lifetime occurrences of reference positions and generic arguments,
replacing the collected lifetimes by `'static` in the walked type, and
computing the `TypeHint` and the dereferenced reference element.  A
reference whose lifetime is `'static` or bound by a surrounding
bare-function quantifier is itself `Copy` and is not walked further; the
element of a collected reference is likewise not walked. -/
def process_type : Ty → List String → Walk
  | .arr elem, ignore =>
      let r := process_type elem ignore
      ⟨.arr r.rewritten, r.hint, none, r.out⟩
  | .bareFn boundLts inputs, ignore =>
      let r := process_type_list inputs (ignore ++ boundLts)
      ⟨.bareFn boundLts r.1, .Copy, none, r.2⟩
  | .group elem, ignore =>
      let r := process_type elem ignore
      ⟨.group r.rewritten, r.hint, r.reference_type, r.out⟩
  | .ref (some (n, s)) andSpan elem, ignore =>
      if ignore.contains n || n == "static" then
        ⟨.ref (some (n, s)) andSpan elem, .Copy, none, []⟩
      else
        ⟨.ref (some ("static", s)) andSpan elem, .None, some elem,
         [(s, some n)]⟩
  | .ref none andSpan elem, _ =>
      ⟨.ref (some ("static", andSpan)) andSpan elem, .None, some elem,
       [(andSpan, none)]⟩
  | .slice elem, ignore =>
      let r := process_type elem ignore
      ⟨.slice r.rewritten, .None, none, r.out⟩
  | .tuple elems, ignore =>
      let r := process_tuple elems ignore .Copy
      ⟨.tuple r.1, r.2.1, none, r.2.2⟩
  | .path lc segs, ignore =>
      if isPrimPath lc segs then ⟨.path lc segs, .Copy, none, []⟩
      else
        let r := process_segments segs ignore
        ⟨.path lc r.1, .None, none, r.2⟩
  | .other, _ => ⟨.other, .None, none, []⟩

/-- The loop over bare-function inputs and parenthesized path arguments:
hints and reference types are discarded, lifetime collection and rewriting
apply. -/
def process_type_list : TyList → List String →
    TyList × List (Span × Option String)
  | .nil, _ => (.nil, [])
  | .cons hd tl, ignore =>
      let r := process_type hd ignore
      let k := process_type_list tl ignore
      (.cons r.rewritten k.1, r.out ++ k.2)

/-- The tuple loop: the hint accumulator starts at `Copy` and is
`combine`d with each element's hint in order. -/
def process_tuple : TyList → List String → TypeHint →
    TyList × TypeHint × List (Span × Option String)
  | .nil, _, hint => (.nil, hint, [])
  | .cons hd tl, ignore, hint =>
      let r := process_type hd ignore
      let k := process_tuple tl ignore (hint.combine r.hint)
      (.cons r.rewritten k.1, k.2.1, r.out ++ k.2.2)

/-- The loop over a path's segments. -/
def process_segments : SegList → List String →
    SegList × List (Span × Option String)
  | .nil, _ => (.nil, [])
  | .cons name args tl, ignore =>
      let r := process_path_arguments args ignore
      let k := process_segments tl ignore
      (.cons name r.1 k.1, r.2 ++ k.2)

/-- Dispatch on one segment's `PathArguments`. -/
def process_path_arguments : PathArgs → List String →
    PathArgs × List (Span × Option String)
  | .nonePA, _ => (.nonePA, [])
  | .angle gargs, ignore =>
      let r := process_generic_type gargs ignore
      (.angle r.1, r.2)
  | .paren inputs, ignore =>
      let r := process_type_list inputs ignore
      (.paren r.1, r.2)

/-- `process_generic_type` from `implement.rs`: walk a generic-argument
list; a non-static lifetime is collected and replaced by `'static`; a
`'static` lifetime makes the function return, leaving the remaining
arguments of this list unprocessed; type arguments are walked with
`process_type`. -/
def process_generic_type : GArgList → List String →
    GArgList × List (Span × Option String)
  | .nil, _ => (.nil, [])
  | .consLt n s tl, ignore =>
      if n == "static" then (.consLt n s tl, [])
      else
        let k := process_generic_type tl ignore
        (.consLt "static" s k.1, (s, some n) :: k.2)
  | .consTy t tl, ignore =>
      let r := process_type t ignore
      let k := process_generic_type tl ignore
      (.consTy r.rewritten k.1, r.out ++ k.2)
  | .consOther tl, ignore =>
      let k := process_generic_type tl ignore
      (.consOther k.1, k.2)

end

end Impl

namespace Impl

open Syn

/-- `Access` from `implement.rs`: how a field value is reached in the
generated conversion bodies. -/
inductive Access where
  | SelfAccess
  | BindingAccess
deriving DecidableEq

/-- A structural member: a field name or a positional index. -/
inductive Member where
  | named (n : String)
  | unnamed (i : Nat)
deriving DecidableEq

/-- `Binding` from `implement.rs`: a named struct field or a positional
tuple field. -/
inductive Binding where
  | Named (ident : String)
  | Unnamed (index : Nat)
deriving DecidableEq

/-- `Binding::as_member`. -/
def Binding.as_member : Binding → Member
  | .Named ident => .named ident
  | .Unnamed index => .unnamed index

/-- `Binding::as_variable`: positional fields are bound as `f<index>`. -/
def Binding.as_variable : Binding → String
  | .Named ident => ident
  | .Unnamed index => "f" ++ toString index

/-- The expressions the conversion emitter builds: `self`, member access,
path/variable references, `&`-references and single-argument calls. -/
inductive Expr where
  | selfE
  | field (base : Expr) (member : Member)
  | pathE (path : List String)
  | refE (e : Expr)
  | call (func : List String) (arg : Expr)
deriving DecidableEq

/-- `BoundAccess` from `implement.rs`. -/
structure BoundAccess where
  copy : Bool
  access : Access
  binding : Binding

/-- `BoundAccess::as_expr`: `self.<member>` for self access (wrapped in a
reference unless the field is copy), the bound variable for binding
access. -/
def BoundAccess.as_expr (b : BoundAccess) : Expr :=
  match b.access with
  | .SelfAccess =>
      let e := Expr.field .selfE b.binding.as_member
      if b.copy then e else .refE e
  | .BindingAccess => .pathE [b.binding.as_variable]

/-- `Call` from `implement.rs`: delegate through a function path, or use
the accessed value directly. -/
inductive Call where
  | Path (path : List String)
  | Ref
deriving DecidableEq

/-- `Call::as_expr`. -/
def Call.as_expr (c : Call) (access : BoundAccess) : Expr :=
  match c with
  | .Path path => .call path access.as_expr
  | .Ref => access.as_expr

/-- `Ctxt::clone_t_clone`: `::core::clone::Clone::clone`. -/
def clone_t_clone : List String := ["core", "clone", "Clone", "clone"]

/-- `Ctxt::borrowme_to_owned_t_to_owned`: `::borrowme::ToOwned::to_owned`,
the default to-owned delegate. -/
def borrowme_to_owned_t_to_owned : List String :=
  ["borrowme", "ToOwned", "to_owned"]

/-- `Ctxt::borrowme_borrow_t_borrow`: `::borrowme::Borrow::borrow`, the
default borrow delegate. -/
def borrowme_borrow_t_borrow : List String := ["borrowme", "Borrow", "borrow"]

/-- The owned declaration's field type: either a plain type, or the
associated-type projection `<t as ::borrowme::ToOwned>::Owned` the
fallback builds (a `TypePath` with a `QSelf` at position 2). -/
inductive OutTy where
  | plain (t : Ty)
  | projection (t : Ty)

/-- `matches!(kind, FieldTypeKind::Copy(true))`, the by-value access
flag. -/
def isCopyTrue : Attr.FieldTypeKind → Bool
  | .Copy true => true
  | _ => false

/-- The per-field result of `process_fields`: the diagnostics registered
for this field, the resolved kind, the owned and borrowed declarations'
field types, the two conversion entries, and whether the field is accessed
by value. -/
structure FieldOutcome where
  errors : List Attr.Err
  kind : Attr.FieldTypeKind
  oFieldTy : OutTy
  bFieldTy : Ty
  to_owned_entry : Expr
  borrow_entry : Expr
  copyAccess : Bool

/-- The per-field body of `process_fields` from `implement.rs`.  Inputs:
the field's resolved kind and explicit owned type (`attr.ty`), the
resolved delegate paths (`attr.to_owned` / `attr.borrow`, `none` meaning
the trait-method default), the field's declared type and span, and the
access/binding for the conversion entries.

The walk runs on a clone of the field type with an empty ignore set.  A
field explicitly marked copy registers one combined diagnostic per
collected lifetime (at the lifetime or `&` token, combined with the hint
suggesting the explicit owned type) and nothing else; otherwise the
fallback stores the projection over the rewritten type when no owned type
is set and the field is not a std-classified reference, and a `Copy` hint
promotes the kind to `Copy(true)` unless an explicit `Copy(false)` was
set.  The final strategy match selects the two calls and the owned field
type; the borrowed declaration's field type is never modified. -/
def process_field (kind₀ : Attr.FieldTypeKind) (owned₀ : Option Ty)
    (to_owned_with borrow_with : Option (List String))
    (fieldTy : Ty) (fieldSpan : Span) (access : Access) (binding : Binding) :
    FieldOutcome :=
  let w := process_type fieldTy []
  let errors : List Attr.Err :=
    match kind₀ with
    | .Copy true =>
        w.out.map (fun e =>
          ⟨e.1,
           if e.2.isSome then "#[borrowme]: lifetime not supported."
           else "#[borrowme]: anonymous references not supported.",
           [(fieldSpan,
             "Hint: add #[owned(ty = <type>)] to specify which type to override this field with")]⟩)
    | _ => []
  let ko : Attr.FieldTypeKind × Option OutTy :=
    match kind₀ with
    | .Copy true => (kind₀, owned₀.map OutTy.plain)
    | _ =>
        let is_std_ref : Bool :=
          match kind₀, w.reference_type with
          | .Std, some _ => true
          | _, _ => false
        match w.hint with
        | .None =>
            if owned₀.isNone && !is_std_ref then
              (kind₀, some (OutTy.projection w.rewritten))
            else (kind₀, owned₀.map OutTy.plain)
        | .Copy =>
            (match kind₀ with
             | .Copy false => kind₀
             | _ => .Copy true,
             owned₀.map OutTy.plain)
  let cb : Call × Call × OutTy :=
    match ko.1, w.reference_type, ko.2 with
    | .Copy true, _, _ => (.Ref, .Ref, .plain fieldTy)
    | .Std, _, some t => (.Path clone_t_clone, .Ref, t)
    | .Std, some rt, none => (.Path clone_t_clone, .Ref, .plain rt)
    | _, _, some t =>
        (.Path (to_owned_with.getD borrowme_to_owned_t_to_owned),
         .Path (borrow_with.getD borrowme_borrow_t_borrow), t)
    | _, _, _ => (.Path clone_t_clone, .Path clone_t_clone, .plain fieldTy)
  let bound : BoundAccess := ⟨isCopyTrue ko.1, access, binding⟩
  ⟨errors, ko.1, cb.2.2, fieldTy,
   cb.1.as_expr bound, cb.2.1.as_expr bound, isCopyTrue ko.1⟩

end Impl

/-- The opaque path type `Foo` (a named type the classifier cannot see
through). -/
def fooTy : Syn.Ty := .path false (.cons "Foo" .nonePA .nil)

/-- The primitive path type `u32`. -/
def u32Ty : Syn.Ty := .path false (.cons "u32" .nonePA .nil)

/-- The path type `str`. -/
def strTy : Syn.Ty := .path false (.cons "str" .nonePA .nil)

/-- **C4** (code-bug evidence).  `TypeHint::combine` stores its second
operand in every case that is not `(Copy, Copy)`, so the tuple walk's hint
is the hint of the last component rather than the AND over all components:
the opaque `Foo` is not hinted `Copy`, yet the tuple `(Foo, u32)` is
hinted `Copy`, while `(u32, Foo)` is not — component order decides,
contradicting the crate documentation ("Tuple types `(A, B, ..)` for which
all of its elements look like they are copy"). -/
theorem c4_tuple_hint_is_last_component_not_and :
    Impl.TypeHint.combine .None .Copy = .Copy ∧
    (Impl.process_type fooTy []).hint = .None ∧
    (Impl.process_type u32Ty []).hint = .Copy ∧
    (Impl.process_type (.tuple (.cons fooTy (.cons u32Ty .nil))) []).hint =
      .Copy ∧
    (Impl.process_type (.tuple (.cons u32Ty (.cons fooTy .nil))) []).hint =
      .None :=
  ⟨rfl, rfl, rfl, rfl, rfl⟩

mutual

/-- Syntactic containment used to state C5: does the type contain a
reference whose lifetime is anonymous, or neither `'static` nor bound by a
surrounding bare-function lifetime quantifier?  Unlike the walk, the
predicate descends into reference elements and past `'static` generic
arguments. -/
def hasUnresolvedRefLt : Syn.Ty → List String → Bool
  | .arr e, ig => hasUnresolvedRefLt e ig
  | .bareFn lts inputs, ig => hasUnresolvedRefLtList inputs (ig ++ lts)
  | .group e, ig => hasUnresolvedRefLt e ig
  | .ref lt _ e, ig =>
      (match lt with
       | some (n, _) => !(ig.contains n || n == "static")
       | none => true) || hasUnresolvedRefLt e ig
  | .slice e, ig => hasUnresolvedRefLt e ig
  | .tuple es, ig => hasUnresolvedRefLtList es ig
  | .path _ segs, ig => hasUnresolvedRefLtSegs segs ig
  | .other, _ => false

/-- `hasUnresolvedRefLt` over a type list. -/
def hasUnresolvedRefLtList : Syn.TyList → List String → Bool
  | .nil, _ => false
  | .cons h t, ig => hasUnresolvedRefLt h ig || hasUnresolvedRefLtList t ig

/-- `hasUnresolvedRefLt` over a segment list. -/
def hasUnresolvedRefLtSegs : Syn.SegList → List String → Bool
  | .nil, _ => false
  | .cons _ args t, ig =>
      hasUnresolvedRefLtArgs args ig || hasUnresolvedRefLtSegs t ig

/-- `hasUnresolvedRefLt` over one segment's path arguments. -/
def hasUnresolvedRefLtArgs : Syn.PathArgs → List String → Bool
  | .nonePA, _ => false
  | .angle gs, ig => hasUnresolvedRefLtGArgs gs ig
  | .paren inputs, ig => hasUnresolvedRefLtList inputs ig

/-- `hasUnresolvedRefLt` over a generic-argument list (no early stop). -/
def hasUnresolvedRefLtGArgs : Syn.GArgList → List String → Bool
  | .nil, _ => false
  | .consLt _ _ t, ig => hasUnresolvedRefLtGArgs t ig
  | .consTy ty t, ig => hasUnresolvedRefLt ty ig || hasUnresolvedRefLtGArgs t ig
  | .consOther t, ig => hasUnresolvedRefLtGArgs t ig

end

/-- The field type `Foo<'static, &'a str>`. -/
def fooStaticRefTy : Syn.Ty :=
  .path false
    (.cons "Foo"
      (.angle (.consLt "static" 10
        (.consTy (.ref (some ("a", 11)) 12 strTy) .nil)))
      .nil)

/-- **C5** (code-bug evidence).  A field explicitly marked copy whose
declared type is `Foo<'static, &'a str>` contains the unresolved
non-static reference lifetime `'a`, yet resolution registers no diagnostic
and silently succeeds: upon meeting the `'static` generic argument,
`process_generic_type` returns instead of continuing with the remaining
arguments of the list, so the later `&'a str` argument is never walked and
no lifetime is collected.  By contrast, a directly declared `&'a str`
field marked copy registers the combined diagnostic at the lifetime with
the owned-type hint. -/
theorem c5_explicit_copy_unresolved_lifetime_silently_skipped :
    hasUnresolvedRefLt fooStaticRefTy [] = true ∧
    (Impl.process_field (.Copy true) none none none fooStaticRefTy 99
       .SelfAccess (.Named "text")).errors = [] ∧
    (Impl.process_field (.Copy true) none none none
       (.ref (some ("a", 11)) 12 strTy) 99 .SelfAccess
       (.Named "text")).errors =
      [⟨11, "#[borrowme]: lifetime not supported.",
        [(99,
          "Hint: add #[owned(ty = <type>)] to specify which type to override this field with")]⟩] :=
  ⟨rfl, rfl, rfl⟩

/-- **C6.** A field with no explicit classification and no explicit
owned-type override whose structural walk yields a `Copy` hint is promoted
to implicit copy: the resolved kind becomes `Copy(true)`, both conversion
entries use the accessed value directly with no conversion call
(`self.<field>` by value under self access, the bound variable under
binding access), the owned field type is the unchanged declared type, and
no diagnostic is registered; an explicit `Copy(false)` classification
suppresses the promotion. -/
theorem c6_copy_hint_promotes_to_implicit_copy :
    ∀ (ty : Syn.Ty) (fieldSpan : Syn.Span) (tw bw : Option (List String))
      (access : Impl.Access) (binding : Impl.Binding),
      (Impl.process_type ty []).hint = .Copy →
      ((Impl.process_field .Default none tw bw ty fieldSpan access
          binding).kind = .Copy true ∧
       (Impl.process_field .Default none tw bw ty fieldSpan access
          binding).copyAccess = true ∧
       (Impl.process_field .Default none tw bw ty fieldSpan access
          binding).to_owned_entry =
         (Impl.BoundAccess.mk true access binding).as_expr ∧
       (Impl.process_field .Default none tw bw ty fieldSpan access
          binding).borrow_entry =
         (Impl.BoundAccess.mk true access binding).as_expr ∧
       (Impl.process_field .Default none tw bw ty fieldSpan access
          binding).oFieldTy = .plain ty ∧
       (Impl.process_field .Default none tw bw ty fieldSpan access
          binding).errors = []) ∧
      ((Impl.process_field (.Copy false) none tw bw ty fieldSpan access
          binding).kind = .Copy false ∧
       (Impl.process_field (.Copy false) none tw bw ty fieldSpan access
          binding).copyAccess = false) ∧
      (Impl.BoundAccess.mk true .SelfAccess binding).as_expr =
        .field .selfE binding.as_member ∧
      (Impl.BoundAccess.mk true .BindingAccess binding).as_expr =
        .pathE [binding.as_variable] := by
  intro ty fieldSpan tw bw access binding h
  refine ⟨⟨?_, ?_, ?_, ?_, ?_, ?_⟩, ⟨?_, ?_⟩, rfl, rfl⟩ <;>
    simp [Impl.process_field, h, Impl.isCopyTrue, Impl.Call.as_expr]

/-- Witness for C6: the field type `u32` is hinted `Copy` and is promoted
to implicit copy with by-value access. -/
theorem c6_copy_hint_promotes_to_implicit_copy_witness :
    (Impl.process_type u32Ty []).hint = .Copy ∧
    (Impl.process_field .Default none none none u32Ty 7 .SelfAccess
       (.Named "count")).kind = .Copy true ∧
    (Impl.process_field .Default none none none u32Ty 7 .SelfAccess
       (.Named "count")).to_owned_entry = .field .selfE (.named "count") :=
  ⟨rfl,
   (c6_copy_hint_promotes_to_implicit_copy u32Ty 7 none none .SelfAccess
      (.Named "count") rfl).1.1,
   ((c6_copy_hint_promotes_to_implicit_copy u32Ty 7 none none .SelfAccess
      (.Named "count") rfl).1.2.2.1).trans rfl⟩

namespace Impl

open Syn

mutual

/-- Erase lifetime names from a type, keeping everything else: used to
state that the `process_type` rewriting changes lifetimes only. -/
def eraseLt : Ty → Ty
  | .arr e => .arr (eraseLt e)
  | .bareFn lts inputs => .bareFn lts (eraseLtList inputs)
  | .group e => .group (eraseLt e)
  | .ref _ s e => .ref none s (eraseLt e)
  | .slice e => .slice (eraseLt e)
  | .tuple es => .tuple (eraseLtList es)
  | .path lc segs => .path lc (eraseLtSegs segs)
  | .other => .other

/-- `eraseLt` over a type list. -/
def eraseLtList : TyList → TyList
  | .nil => .nil
  | .cons h t => .cons (eraseLt h) (eraseLtList t)

/-- `eraseLt` over a segment list. -/
def eraseLtSegs : SegList → SegList
  | .nil => .nil
  | .cons n args t => .cons n (eraseLtArgs args) (eraseLtSegs t)

/-- `eraseLt` over one segment's path arguments. -/
def eraseLtArgs : PathArgs → PathArgs
  | .nonePA => .nonePA
  | .angle gs => .angle (eraseLtGArgs gs)
  | .paren inputs => .paren (eraseLtList inputs)

/-- `eraseLt` over a generic-argument list: lifetime names are blanked,
spans kept. -/
def eraseLtGArgs : GArgList → GArgList
  | .nil => .nil
  | .consLt _ s t => .consLt "" s (eraseLtGArgs t)
  | .consTy ty t => .consTy (eraseLt ty) (eraseLtGArgs t)
  | .consOther t => .consOther (eraseLtGArgs t)

end

mutual

/-- The `process_type` rewriting changes only lifetimes: the
lifetime-erased rewritten type equals the lifetime-erased input. -/
theorem process_type_eraseLt : (ty : Ty) → (ig : List String) →
    eraseLt (process_type ty ig).rewritten = eraseLt ty
  | .arr e, ig => by
      simp [process_type, eraseLt, process_type_eraseLt e ig]
  | .bareFn lts inputs, ig => by
      simp [process_type, eraseLt,
        process_type_list_eraseLt inputs (ig ++ lts)]
  | .group e, ig => by
      simp [process_type, eraseLt, process_type_eraseLt e ig]
  | .ref (some (n, s)) andSpan e, ig => by
      simp only [process_type]
      split <;> simp [eraseLt]
  | .ref none andSpan e, ig => by
      simp [process_type, eraseLt]
  | .slice e, ig => by
      simp [process_type, eraseLt, process_type_eraseLt e ig]
  | .tuple es, ig => by
      simp [process_type, eraseLt, process_tuple_eraseLt es ig .Copy]
  | .path lc segs, ig => by
      simp only [process_type]
      split
      · rfl
      · simp [eraseLt, process_segments_eraseLt segs ig]
  | .other, _ => rfl

/-- `process_type_eraseLt` for the type-list loop. -/
theorem process_type_list_eraseLt : (ts : TyList) → (ig : List String) →
    eraseLtList (process_type_list ts ig).1 = eraseLtList ts
  | .nil, _ => rfl
  | .cons h t, ig => by
      simp [process_type_list, eraseLtList, process_type_eraseLt h ig,
        process_type_list_eraseLt t ig]

/-- `process_type_eraseLt` for the tuple loop. -/
theorem process_tuple_eraseLt : (ts : TyList) → (ig : List String) →
    (hint : TypeHint) →
    eraseLtList (process_tuple ts ig hint).1 = eraseLtList ts
  | .nil, _, _ => rfl
  | .cons h t, ig, hint => by
      simp [process_tuple, eraseLtList, process_type_eraseLt h ig,
        process_tuple_eraseLt t ig]

/-- `process_type_eraseLt` for the segment loop. -/
theorem process_segments_eraseLt : (segs : SegList) → (ig : List String) →
    eraseLtSegs (process_segments segs ig).1 = eraseLtSegs segs
  | .nil, _ => rfl
  | .cons n args t, ig => by
      simp [process_segments, eraseLtSegs,
        process_path_arguments_eraseLt args ig, process_segments_eraseLt t ig]

/-- `process_type_eraseLt` for one segment's arguments. -/
theorem process_path_arguments_eraseLt : (args : PathArgs) →
    (ig : List String) →
    eraseLtArgs (process_path_arguments args ig).1 = eraseLtArgs args
  | .nonePA, _ => rfl
  | .angle gs, ig => by
      simp [process_path_arguments, eraseLtArgs,
        process_generic_type_eraseLt gs ig]
  | .paren inputs, ig => by
      simp [process_path_arguments, eraseLtArgs,
        process_type_list_eraseLt inputs ig]

/-- `process_type_eraseLt` for the generic-argument loop. -/
theorem process_generic_type_eraseLt : (gs : GArgList) → (ig : List String) →
    eraseLtGArgs (process_generic_type gs ig).1 = eraseLtGArgs gs
  | .nil, _ => rfl
  | .consLt n s t, ig => by
      simp only [process_generic_type]
      split <;> simp [eraseLtGArgs, process_generic_type_eraseLt t ig]
  | .consTy ty t, ig => by
      simp [process_generic_type, eraseLtGArgs, process_type_eraseLt ty ig,
        process_generic_type_eraseLt t ig]
  | .consOther t, ig => by
      simp [process_generic_type, eraseLtGArgs,
        process_generic_type_eraseLt t ig]

end

end Impl

/-- **C7.** Lifetimes found during the walk are rewritten to `'static`
only in the cloned type expression used for the `ToOwned::Owned`
associated-type projection: (i) the borrowed declaration's field type is
never modified, for every classification; (ii) in the generic fallback the
owned field type is exactly the projection over the rewritten clone;
(iii) the rewriting changes nothing but lifetimes (the lifetime-erased
rewritten type equals the lifetime-erased input); (iv) whenever the owned
field type is emitted as a plain (non-projection) type, that type is the
unmodified declared type, the user's explicit owned type, or the original
(unrewritten) reference element — never a rewritten type. -/
theorem c7_static_rewrite_only_in_projection :
    (∀ (k : Attr.FieldTypeKind) (o : Option Syn.Ty)
        (tw bw : Option (List String)) (ty : Syn.Ty) (sp : Syn.Span)
        (acc : Impl.Access) (b : Impl.Binding),
      (Impl.process_field k o tw bw ty sp acc b).bFieldTy = ty) ∧
    (∀ (ty : Syn.Ty) (sp : Syn.Span) (tw bw : Option (List String))
        (acc : Impl.Access) (b : Impl.Binding),
      (Impl.process_type ty []).hint = .None →
      (Impl.process_field .Default none tw bw ty sp acc b).oFieldTy =
        .projection (Impl.process_type ty []).rewritten) ∧
    (∀ (ty : Syn.Ty) (ig : List String),
      Impl.eraseLt (Impl.process_type ty ig).rewritten = Impl.eraseLt ty) ∧
    (∀ (k : Attr.FieldTypeKind) (o : Option Syn.Ty)
        (tw bw : Option (List String)) (ty : Syn.Ty) (sp : Syn.Span)
        (acc : Impl.Access) (b : Impl.Binding) (t : Syn.Ty),
      (Impl.process_field k o tw bw ty sp acc b).oFieldTy = .plain t →
      t = ty ∨ o = some t ∨
        (Impl.process_type ty []).reference_type = some t) := by
  refine ⟨fun k o tw bw ty sp acc b => rfl, ?_, Impl.process_type_eraseLt, ?_⟩
  · intro ty sp tw bw acc b h
    simp [Impl.process_field, h]
  · intro k o tw bw ty sp acc b t
    cases hh : (Impl.process_type ty []).hint <;>
      cases hr : (Impl.process_type ty []).reference_type <;>
        rcases k with _ | (_ | _) | _ <;>
          rcases o with _ | ot <;>
            simp [Impl.process_field, hh, hr] <;>
              intro h <;> simp_all

/-- Witness for C7: a `&'a str` field in the generic fallback keeps its
declared type in the borrowed declaration and projects over the rewritten
clone in the owned declaration. -/
theorem c7_static_rewrite_only_in_projection_witness :
    (Impl.process_type (.ref (some ("a", 1)) 2 strTy) []).hint = .None ∧
    (Impl.process_field .Default none none none (.ref (some ("a", 1)) 2 strTy)
       9 .SelfAccess (.Named "text")).bFieldTy =
      .ref (some ("a", 1)) 2 strTy ∧
    (Impl.process_field .Default none none none (.ref (some ("a", 1)) 2 strTy)
       9 .SelfAccess (.Named "text")).oFieldTy =
      .projection
        (Impl.process_type (.ref (some ("a", 1)) 2 strTy) []).rewritten :=
  ⟨rfl,
   c7_static_rewrite_only_in_projection.1 .Default none none none
     (.ref (some ("a", 1)) 2 strTy) 9 .SelfAccess (.Named "text"),
   c7_static_rewrite_only_in_projection.2.1 (.ref (some ("a", 1)) 2 strTy) 9
     none none .SelfAccess (.Named "text") rfl⟩
